import Mathlib

/-!
Shallow embedding of the geospatial proximity / map-layout module and the
affordability calculator of the Database-Project repository (the client
logic in `static/js/app.js`).

Modelling conventions:
* JavaScript numbers occurring in amenity feature coordinates are modelled
  by `JSNum`: a finite value (an exact rational) or one of the non-finite
  sentinels `NaN`, `Infinity`, `-Infinity`.
* Real-valued trigonometry (the haversine distance `distanceInMeters` and
  the marker displacement of `showNearbyAmenitiesOnMap`) is modelled over
  `ℝ`; floating-point rounding is idealised away.
* Fallible code paths (a thrown `TypeError`) are modelled with `Except`.
-/

namespace HDB

/-- A JavaScript number as it can appear in feature coordinates: a finite
value, or `NaN`, `Infinity`, `-Infinity`. -/
inductive JSNum where
  | fin : ℚ → JSNum
  | nan : JSNum
  | posInf : JSNum
  | negInf : JSNum
deriving DecidableEq, Repr

/-- A GeoJSON geometry as consumed by `app.js`: a `type` tag and a
`coordinates` field.  `coordinates = none` models a value that is not an
array (the code checks `Array.isArray`). -/
structure Geometry where
  type : String
  coordinates : Option (List JSNum)
deriving DecidableEq, Repr

/-- An amenity feature.  `geometry = none` models a missing/undefined
geometry; `name` stands in for the display properties, which no claim
computes with but which lets distinct features share coordinates. -/
structure Feature where
  geometry : Option Geometry
  name : Option String
deriving DecidableEq, Repr

/-- The in-memory amenities cache `amenitiesData`: `features = none` models
a cache object without a usable `features` field. -/
structure AmenitiesData where
  features : Option (List (Option Feature))
deriving DecidableEq, Repr

/-- Two-argument arctangent, the standard mathematical definition of
JavaScript's `Math.atan2` on finite inputs. -/
noncomputable def atan2 (y x : ℝ) : ℝ :=
  if 0 < x then Real.arctan (y / x)
  else if x < 0 then
    (if 0 ≤ y then Real.arctan (y / x) + Real.pi else Real.arctan (y / x) - Real.pi)
  else if 0 < y then Real.pi / 2
  else if y < 0 then -(Real.pi / 2)
  else 0

/-- The intermediate value `a` of the haversine formula in
`distanceInMeters` (app.js lines 121-134), with the `toRad` helper
inlined: `sin²(Δlat/2) + cos(lat1)·cos(lat2)·sin²(Δlng/2)`. -/
noncomputable def haversineA (lat1 lng1 lat2 lng2 : ℝ) : ℝ :=
  Real.sin ((lat2 - lat1) * Real.pi / 180 / 2) *
      Real.sin ((lat2 - lat1) * Real.pi / 180 / 2) +
    Real.cos (lat1 * Real.pi / 180) * Real.cos (lat2 * Real.pi / 180) *
      (Real.sin ((lng2 - lng1) * Real.pi / 180 / 2) *
        Real.sin ((lng2 - lng1) * Real.pi / 180 / 2))

/-- The haversine great-circle distance of `distanceInMeters` (app.js lines
121-134): `R · 2 · atan2(√a, √(1−a))` with `R = 6371000`. -/
noncomputable def distanceInMeters (lat1 lng1 lat2 lng2 : ℝ) : ℝ :=
  6371000 *
    (2 * atan2 (Real.sqrt (haversineA lat1 lng1 lat2 lng2))
      (Real.sqrt (1 - haversineA lat1 lng1 lat2 lng2)))

/-- The distance comparison `dist <= radiusMeters` performed by the filter
of `getNearbyAmenities`.  A non-finite coordinate propagates `NaN` through
the haversine formula and every comparison with `NaN` is false. -/
noncomputable def jsDistLe (lat lng : ℝ) (fLat fLng : JSNum) (radiusMeters : ℝ) : Prop :=
  match fLat, fLng with
  | .fin a, .fin b => distanceInMeters lat lng (a : ℝ) (b : ℝ) ≤ radiusMeters
  | _, _ => False

/-- The filter predicate of `getNearbyAmenities` (app.js lines 139-146):
drop null features, missing geometries, non-`Point` types, non-array or
short coordinate lists (`coords` defaults to `[]` when falsy), then keep
exactly when `distanceInMeters(lat, lng, fLat, fLng) <= radiusMeters`. -/
noncomputable def keepFeature (lat lng radiusMeters : ℝ) : Option Feature → Prop
  | none => False
  | some f =>
    match f.geometry with
    | none => False
    | some g =>
      g.type = "Point" ∧
        match g.coordinates with
        | none => False
        | some coords =>
          2 ≤ coords.length ∧
            match coords.get? 0, coords.get? 1 with
            | some fLng, some fLat => jsDistLe lat lng fLat fLng radiusMeters
            | _, _ => False

open Classical in
/-- The `getNearbyAmenities` function (app.js lines 136-147): returns `[]`
when the cache or its `features` field is missing, otherwise filters the
cached features by `keepFeature`. -/
noncomputable def getNearbyAmenities (amenitiesData : Option AmenitiesData)
    (lat lng radiusMeters : ℝ) : List (Option Feature) :=
  match amenitiesData with
  | none => []
  | some d =>
    match d.features with
    | none => []
    | some fs => fs.filter (fun f => decide (keepFeature lat lng radiusMeters f))

/-- One component of the coordinate key string `fLng.toFixed(6)` built by
the marker-placement loop of `showNearbyAmenitiesOnMap`.  `num sign n`
models the decimal string for an ordinary finite value: `sign` is the
leading minus (ECMA toFixed emits a minus then formats the absolute
value), `n` the absolute value rounded half-up at six decimals.  `big q`
models the plain to-string fallback toFixed takes for magnitudes of at
least `10^21`, and the last three constructors model the strings produced
for the non-finite numbers. -/
inductive FixedStr where
  | num : Bool → ℤ → FixedStr
  | big : ℚ → FixedStr
  | nanStr : FixedStr
  | infStr : FixedStr
  | negInfStr : FixedStr
deriving DecidableEq, Repr

/-- The string `x.toFixed(6)`, modelled as a `FixedStr`. -/
def toFixed6 : JSNum → FixedStr
  | .nan => .nanStr
  | .posInf => .infStr
  | .negInf => .negInfStr
  | .fin q =>
    if 10 ^ 21 ≤ |q| then .big q
    else .num (decide (q < 0)) (Int.floor (|q| * 10 ^ 6 + 1 / 2))

/-- One marker produced by the placement loop of
`showNearbyAmenitiesOnMap`: the feature, its raw coordinates, and
`indexAtCoord`, the running count of features seen so far at the same
rounded coordinate (1 for the first). -/
structure Placement where
  feature : Feature
  fLng : JSNum
  fLat : JSNum
  indexAtCoord : ℕ
deriving DecidableEq, Repr

/-- The rounded-coordinate key `fLng.toFixed(6) + "," + fLat.toFixed(6)`
of a placement. -/
def placeKey (p : Placement) : FixedStr × FixedStr :=
  (toFixed6 p.fLng, toFixed6 p.fLat)

/-- The empty `coordCounts` object at the start of the loop. -/
def zeroCounts : FixedStr × FixedStr → ℕ := fun _ => 0

/-- The `coordCounts[key] = (coordCounts[key] || 0) + 1` update. -/
def bumpCounts (counts : FixedStr × FixedStr → ℕ) (key : FixedStr × FixedStr) :
    FixedStr × FixedStr → ℕ :=
  fun k => if k = key then counts key + 1 else counts k

/-- The marker-placement loop of `showNearbyAmenitiesOnMap` (app.js lines
159-224), the spec's `layoutForDisplay`, as a function of the running
`coordCounts` state.  A null feature entry makes `feature.geometry` throw
a TypeError, and a coordinate array of fewer than two entries makes
`fLat.toFixed(6)` throw on `undefined`; both are modelled by
`Except.error`.  A feature whose geometry is missing, is not a `Point`,
or has non-array coordinates is skipped.  Everything else is kept — the
loop performs no finiteness check on the coordinates. -/
def layoutForDisplay (counts : FixedStr × FixedStr → ℕ) :
    List (Option Feature) → Except Unit (List Placement)
  | [] => .ok []
  | f? :: rest =>
    match f? with
    | none => .error ()
    | some f =>
      match f.geometry with
      | none => layoutForDisplay counts rest
      | some g =>
        if g.type = "Point" then
          match g.coordinates with
          | none => layoutForDisplay counts rest
          | some coords =>
            match coords.get? 0, coords.get? 1 with
            | some fLng, some fLat =>
              match layoutForDisplay
                  (bumpCounts counts (toFixed6 fLng, toFixed6 fLat)) rest with
              | .error e => .error e
              | .ok ps =>
                .ok (⟨f, fLng, fLat, counts (toFixed6 fLng, toFixed6 fLat) + 1⟩ :: ps)
            | _, _ => .error ()
        else layoutForDisplay counts rest

/-- The displayed position (latitude, longitude) of the `k`-th feature at
a rounded coordinate whose raw coordinates are `(fLat, fLng)` (app.js
lines 174-188): the first keeps the original position, each subsequent
one is jittered 18 meters at angle `(k−1)·π/3` using the conversions
`metersPerDegLat = 111320` and `metersPerDegLng = 111320·cos(fLat·π/180)`
applied per axis. -/
noncomputable def displace (fLat fLng : ℚ) (k : ℕ) : ℝ × ℝ :=
  if k ≤ 1 then ((fLat : ℝ), (fLng : ℝ))
  else
    ((fLat : ℝ) + 18 * Real.sin ((k - 1 : ℕ) * (Real.pi / 3)) / 111320,
      (fLng : ℝ) + 18 * Real.cos ((k - 1 : ℕ) * (Real.pi / 3)) /
        (111320 * Real.cos ((fLat : ℝ) * Real.pi / 180)))

/-- The screen position a placement's marker is given via
`marker.setLngLat([fLng, fLat])`, as a (latitude, longitude) pair.  A
placement with a non-finite raw coordinate gets a NaN/Infinity position,
modelled as `none`. -/
noncomputable def displayedPos (p : Placement) : Option (ℝ × ℝ) :=
  match p.fLat, p.fLng with
  | .fin la, .fin ln => some (displace la ln p.indexAtCoord)
  | _, _ => none

/-- One entry of the `AMENITY_ICONS` table (app.js lines 17-24). -/
structure AmenityConfig where
  icon : String
  color : String
  label : String
deriving DecidableEq, Repr

/-- The `AMENITY_ICONS` lookup table (app.js lines 17-24): five category
entries plus the `DEFAULT` fallback. -/
def AMENITY_ICONS : List (String × AmenityConfig) :=
  [("MRT_STATION", ⟨"🚇", "#dc2626", "MRT Station"⟩),
    ("SCHOOL", ⟨"🏫", "#2563eb", "School"⟩),
    ("CLINIC", ⟨"🏥", "#059669", "Clinic"⟩),
    ("SUPERMARKET", ⟨"🛒", "#ea580c", "Supermarket"⟩),
    ("PARK", ⟨"🌳", "#16a34a", "Park"⟩),
    ("DEFAULT", ⟨"📍", "#10b981", "Amenity"⟩)]

/-- The `DEFAULT` style of `AMENITY_ICONS`. -/
def defaultAmenityConfig : AmenityConfig := ⟨"📍", "#10b981", "Amenity"⟩

/-- ASCII uppercasing of a single character, the fragment of JavaScript's
`toUpperCase` relevant to the keys of `AMENITY_ICONS` and their case
variants. -/
def jsUpperChar (c : Char) : Char :=
  if c.toNat ≥ 97 ∧ c.toNat ≤ 122 then Char.ofNat (c.toNat - 32) else c

/-- JavaScript's `String.prototype.toUpperCase`, modelled character-wise;
it agrees with the JavaScript function on the ASCII range, which covers
the keys of `AMENITY_ICONS`. -/
def jsToUpperCase (s : String) : String :=
  ⟨s.data.map jsUpperChar⟩

/-- The `getAmenityConfig` function (app.js lines 103-106): a missing or
falsy (empty) category uses the key `DEFAULT`, otherwise the uppercased
category; an unmatched key falls back to the `DEFAULT` entry. -/
def getAmenityConfig (amenityType : Option String) : AmenityConfig :=
  let t := match amenityType with
    | none => "DEFAULT"
    | some s => if s = "" then "DEFAULT" else jsToUpperCase s
  match AMENITY_ICONS.lookup t with
  | some c => c
  | none => (AMENITY_ICONS.lookup "DEFAULT").getD defaultAmenityConfig

/-- A mapbox `LngLatBounds` value: running minima and maxima per axis. -/
structure LngLatBounds where
  minLng : ℚ
  minLat : ℚ
  maxLng : ℚ
  maxLat : ℚ
deriving DecidableEq, Repr

/-- Modelled from the spec: mapbox's `LngLatBounds.extend` is external
library code not in this repository; §4.3 specifies the fold as tracking
running min/max of longitude and latitude independently. -/
def extend (b : LngLatBounds) (c : ℚ × ℚ) : LngLatBounds :=
  ⟨min b.minLng c.1, min b.minLat c.2, max b.maxLng c.1, max b.maxLat c.2⟩

/-- The bounds fold of `showAmenitiesOnMap` (app.js lines 276-282): when
`coordsList` is empty nothing is computed and no camera fit is attempted
(the `Empty` sentinel, here `none`); otherwise
`coordsList.reduce((b, c) => b.extend(c), new LngLatBounds(c0, c0))`,
which folds every element (the first one twice) starting from the
degenerate box at the first coordinate. -/
def boundsOf : List (ℚ × ℚ) → Option LngLatBounds
  | [] => none
  | c :: rest => some ((c :: rest).foldl extend ⟨c.1, c.2, c.1, c.2⟩)

/-- The distinct validation failure demanded by spec §7 for invalid
affordability input. -/
inductive ValidationError where
  | invalidDownPayment
  | invalidTenure
  | negativeResult
deriving DecidableEq, Repr

/-- An `AffordabilityInput` (spec §3).  Rationals model the float fields
(every JavaScript float is a rational, so the non-finite-input validation
of §7 is vacuous here); the tenure is an integer. -/
structure AffordabilityInput where
  income : ℚ
  expenses : ℚ
  interest_rate_pct : ℚ
  tenure_years : ℤ
  down_payment_pct : ℚ
deriving DecidableEq, Repr

/-- An `AffordabilityResult` (spec §3); `max_price_per_sqm` is supplied
externally per §4.2 and is not part of the computation. -/
structure AffordabilityResult where
  max_monthly_payment : ℚ
  max_loan_amount : ℚ
  max_property_value : ℚ
  down_payment_required : ℚ
  affordable : Bool
deriving DecidableEq, Repr

/-- Modelled from the spec: the `/api/affordability` backend handler is
not among the repository sources here (the client only posts to it), so
`evaluate` follows §4.2 and §7 literally: validation failures for
`down_payment_pct ≥ 100` and non-positive tenure, the 30%-of-gross-income
payment cap, the present-value-of-annuity loan amount (with the zero-rate
special case), the property value grossed up by the down-payment share,
and a failure instead of any negative property value. -/
def evaluate (inp : AffordabilityInput) : Except ValidationError AffordabilityResult :=
  if 100 ≤ inp.down_payment_pct then .error .invalidDownPayment
  else if inp.tenure_years ≤ 0 then .error .invalidTenure
  else
    let disposable := inp.income - inp.expenses
    let maxMonthly := 3 / 10 * inp.income
    let monthlyRate := inp.interest_rate_pct / 100 / 12
    let n : ℤ := inp.tenure_years * 12
    let maxLoan : ℚ :=
      if monthlyRate = 0 then maxMonthly * n
      else maxMonthly * (1 - (1 + monthlyRate) ^ (-n)) / monthlyRate
    let maxProperty := maxLoan / (1 - inp.down_payment_pct / 100)
    if maxProperty < 0 then .error .negativeResult
    else
      .ok ⟨maxMonthly, maxLoan, maxProperty, maxProperty - maxLoan,
        decide (maxMonthly ≤ disposable)⟩

/-- The state of the affordability form, as parse results: `none` models
a missing form field or an unparsable value (for which `parseFloat` /
`parseInt` return `NaN`); `some q` a field that parsed to `q`.  Parsing
of the raw strings is the collaborator responsibility of spec §6. -/
structure AffordabilityForm where
  income : Option ℚ
  expenses : Option ℚ
  interest : Option ℚ
  tenure : Option ℤ
  downpayment : Option ℚ
deriving DecidableEq, Repr

/-- JavaScript's `parseFloat(...) || d`: the default replaces every falsy
result, i.e. `NaN` (modelled `none`) and `0`. -/
def jsOrNum (v : Option ℚ) (d : ℚ) : ℚ :=
  match v with
  | none => d
  | some q => if q = 0 then d else q

/-- JavaScript's `parseInt(...) || d` on the tenure field. -/
def jsOrInt (v : Option ℤ) (d : ℤ) : ℤ :=
  match v with
  | none => d
  | some q => if q = 0 then d else q

/-- The JSON body posted to `/api/affordability`. -/
structure AffordabilityPayload where
  income : ℚ
  expenses : ℚ
  interest : ℚ
  tenure_years : ℤ
  down_payment_pct : ℚ
deriving DecidableEq, Repr

/-- The payload construction of `setupAffordabilityPanel` (app.js lines
1034-1040). -/
def buildAffordabilityPayload (f : AffordabilityForm) : AffordabilityPayload :=
  ⟨jsOrNum f.income 0, jsOrNum f.expenses 0, jsOrNum f.interest (26 / 10),
    jsOrInt f.tenure 25, jsOrNum f.downpayment 20⟩

/-- Definition following the spec's words, for comparison with
`buildAffordabilityPayload` (claim C5): each field is the parsed numeric
value, with the documented default substituted exactly when the field is
missing or unparsable. -/
def specAffordabilityPayload (f : AffordabilityForm) : AffordabilityPayload :=
  ⟨f.income.getD 0, f.expenses.getD 0, f.interest.getD (26 / 10),
    f.tenure.getD 25, f.downpayment.getD 20⟩

lemma haversineA_comm (lat1 lng1 lat2 lng2 : ℝ) :
    haversineA lat1 lng1 lat2 lng2 = haversineA lat2 lng2 lat1 lng1 := by
  unfold haversineA
  have e1 : (lat1 - lat2) * Real.pi / 180 / 2 = -((lat2 - lat1) * Real.pi / 180 / 2) := by
    ring
  have e2 : (lng1 - lng2) * Real.pi / 180 / 2 = -((lng2 - lng1) * Real.pi / 180 / 2) := by
    ring
  rw [e1, e2, Real.sin_neg, Real.sin_neg]
  ring

lemma haversineA_self (lat lng : ℝ) : haversineA lat lng lat lng = 0 := by
  unfold haversineA
  simp [sub_self, zero_mul, zero_div, Real.sin_zero]

lemma distanceInMeters_self (lat lng : ℝ) : distanceInMeters lat lng lat lng = 0 := by
  unfold distanceInMeters
  rw [haversineA_self]
  norm_num [atan2, Real.sqrt_zero, Real.sqrt_one, Real.arctan_zero]

lemma mem_getNearbyAmenities (fs : List (Option Feature)) (lat lng r : ℝ)
    (f : Option Feature) :
    f ∈ getNearbyAmenities (some ⟨some fs⟩) lat lng r ↔
      f ∈ fs ∧ keepFeature lat lng r f := by
  simp [getNearbyAmenities, List.mem_filter, decide_eq_true_eq]

/-- C7: the haversine distance function is symmetric, and zero on the
diagonal: `distanceInMeters(a, b) = distanceInMeters(b, a)` for every
pair of points, and `distanceInMeters(a, a) = 0` for every point. -/
theorem distanceInMeters_symm_and_self :
    (∀ lat1 lng1 lat2 lng2 : ℝ,
      distanceInMeters lat1 lng1 lat2 lng2 = distanceInMeters lat2 lng2 lat1 lng1) ∧
    (∀ lat lng : ℝ, distanceInMeters lat lng lat lng = 0) := by
  constructor
  · intro lat1 lng1 lat2 lng2
    unfold distanceInMeters
    rw [haversineA_comm]
  · exact distanceInMeters_self

/-- C4: `evaluate` on any input with `down_payment_pct ≥ 100` (the
boundary `= 100` included) fails with the distinct down-payment
`ValidationError` and never returns a result (hence never an infinite,
NaN or negative monetary value — the rational-valued model has no
non-finite values at all). -/
theorem evaluate_rejects_full_downpayment (inp : AffordabilityInput)
    (h : 100 ≤ inp.down_payment_pct) :
    evaluate inp = .error .invalidDownPayment ∧
      ∀ res : AffordabilityResult, evaluate inp ≠ .ok res := by
  have he : evaluate inp = .error .invalidDownPayment := by
    unfold evaluate
    rw [if_pos h]
  refine ⟨he, fun res hres => ?_⟩
  rw [he] at hres
  exact Except.noConfusion hres

/-- Witness for C4 at the boundary input `down_payment_pct = 100`. -/
theorem evaluate_rejects_full_downpayment_witness :
    (100 : ℚ) ≤ (100 : ℚ) ∧
      evaluate ⟨7500, 2000, 26 / 10, 25, 100⟩ = .error .invalidDownPayment :=
  ⟨le_refl _,
    (evaluate_rejects_full_downpayment ⟨7500, 2000, 26 / 10, 25, 100⟩ (by norm_num)).1⟩

/-- A form state in which only the interest field has a value, and that
value parses to the number `0` (e.g. the string "0" typed into
`#af-interest`). -/
def zeroInterestForm : AffordabilityForm := ⟨none, none, some 0, none, none⟩

/-- Counterexample for C5: an interest field that parses to `0` is
parsable, so per the claim the payload should carry `0`; the code's
`parseFloat(...) || 2.6` replaces the falsy `0` with the default `2.6`. -/
theorem payload_zero_interest_defaulted :
    buildAffordabilityPayload zeroInterestForm ≠
        specAffordabilityPayload zeroInterestForm ∧
      (buildAffordabilityPayload zeroInterestForm).interest = 26 / 10 ∧
      (specAffordabilityPayload zeroInterestForm).interest = 0 := by
  refine ⟨?_, by norm_num [buildAffordabilityPayload, zeroInterestForm, jsOrNum],
    by norm_num [specAffordabilityPayload, zeroInterestForm]⟩
  intro h
  have h2 := congrArg AffordabilityPayload.interest h
  norm_num [buildAffordabilityPayload, specAffordabilityPayload, zeroInterestForm,
    jsOrNum] at h2

/-- The default-or-parsed-value combinator of the amended claim C5: the
default is substituted when the field is missing, unparsable, or parsed
to the falsy number `0`. -/
def falsyNum (v : Option ℚ) (d : ℚ) : ℚ :=
  if v = none ∨ v = some 0 then d else v.getD d

/-- Integer variant of `falsyNum` for the tenure field. -/
def falsyInt (v : Option ℤ) (d : ℤ) : ℤ :=
  if v = none ∨ v = some 0 then d else v.getD d

/-- Definition following the amended claim's words: each payload field is
the parsed numeric value of the form field, with the documented default
(interest 2.6, tenure 25, down payment 20, income 0, expenses 0)
substituted exactly when the field is missing, unparsable, or parses to
the falsy value `0`. -/
def specFalsyAffordabilityPayload (f : AffordabilityForm) : AffordabilityPayload :=
  ⟨falsyNum f.income 0, falsyNum f.expenses 0, falsyNum f.interest (26 / 10),
    falsyInt f.tenure 25, falsyNum f.downpayment 20⟩

lemma jsOrNum_eq_falsyNum (v : Option ℚ) (d : ℚ) : jsOrNum v d = falsyNum v d := by
  cases v with
  | none => simp [jsOrNum, falsyNum]
  | some q =>
    by_cases hq : q = 0 <;> simp [jsOrNum, falsyNum, hq]

lemma jsOrInt_eq_falsyInt (v : Option ℤ) (d : ℤ) : jsOrInt v d = falsyInt v d := by
  cases v with
  | none => simp [jsOrInt, falsyInt]
  | some q =>
    by_cases hq : q = 0 <;> simp [jsOrInt, falsyInt, hq]

/-- C5 (amended): for every form state, the payload field is the parsed
value of the form field, except that the documented default is
substituted when the field is missing, unparsable, or parses to the
falsy number `0`. -/
theorem payload_defaults_on_missing_unparsable_or_zero (f : AffordabilityForm) :
    buildAffordabilityPayload f = specFalsyAffordabilityPayload f := by
  cases f
  simp [buildAffordabilityPayload, specFalsyAffordabilityPayload,
    jsOrNum_eq_falsyNum, jsOrInt_eq_falsyInt]

lemma foldl_extend_spec (l : List (ℚ × ℚ)) (acc : LngLatBounds) :
    ((l.foldl extend acc).minLng ≤ acc.minLng ∧
      (l.foldl extend acc).minLat ≤ acc.minLat ∧
      acc.maxLng ≤ (l.foldl extend acc).maxLng ∧
      acc.maxLat ≤ (l.foldl extend acc).maxLat) ∧
    ∀ c ∈ l, (l.foldl extend acc).minLng ≤ c.1 ∧ c.1 ≤ (l.foldl extend acc).maxLng ∧
      (l.foldl extend acc).minLat ≤ c.2 ∧ c.2 ≤ (l.foldl extend acc).maxLat := by
  induction l generalizing acc with
  | nil => simp
  | cons c rest ih =>
    have h := ih (extend acc c)
    simp only [List.foldl_cons]
    have hmin1 : (extend acc c).minLng ≤ acc.minLng := min_le_left _ _
    have hmin2 : (extend acc c).minLat ≤ acc.minLat := min_le_left _ _
    have hmax1 : acc.maxLng ≤ (extend acc c).maxLng := le_max_left _ _
    have hmax2 : acc.maxLat ≤ (extend acc c).maxLat := le_max_left _ _
    have hcmin1 : (extend acc c).minLng ≤ c.1 := min_le_right _ _
    have hcmin2 : (extend acc c).minLat ≤ c.2 := min_le_right _ _
    have hcmax1 : c.1 ≤ (extend acc c).maxLng := le_max_right _ _
    have hcmax2 : c.2 ≤ (extend acc c).maxLat := le_max_right _ _
    refine ⟨⟨le_trans h.1.1 hmin1, le_trans h.1.2.1 hmin2,
      le_trans hmax1 h.1.2.2.1, le_trans hmax2 h.1.2.2.2⟩, ?_⟩
    intro x hx
    rcases List.mem_cons.mp hx with hx | hx
    · subst hx
      exact ⟨le_trans h.1.1 hcmin1, le_trans hcmax1 h.1.2.2.1,
        le_trans h.1.2.1 hcmin2, le_trans hcmax2 h.1.2.2.2⟩
    · exact h.2 x hx

/-- C6: the bounds fold yields the empty sentinel on the empty coordinate
list (so the camera fit is skipped), a degenerate box with `min = max`
equal to the point for a singleton, and for every non-empty list a box
with `min ≤ max` on each axis containing every folded point. -/
theorem boundsOf_empty_single_contains :
    boundsOf [] = none ∧
    (∀ p : ℚ × ℚ, boundsOf [p] = some ⟨p.1, p.2, p.1, p.2⟩) ∧
    (∀ (l : List (ℚ × ℚ)) (b : LngLatBounds), boundsOf l = some b →
      (b.minLng ≤ b.maxLng ∧ b.minLat ≤ b.maxLat) ∧
      ∀ c ∈ l, b.minLng ≤ c.1 ∧ c.1 ≤ b.maxLng ∧ b.minLat ≤ c.2 ∧ c.2 ≤ b.maxLat) := by
  refine ⟨rfl, ?_, ?_⟩
  · intro p
    simp [boundsOf, extend]
  · intro l b hb
    cases l with
    | nil => simp [boundsOf] at hb
    | cons c rest =>
      have hb' : (c :: rest).foldl extend ⟨c.1, c.2, c.1, c.2⟩ = b := by
        simpa [boundsOf] using hb
      have h := foldl_extend_spec (c :: rest) ⟨c.1, c.2, c.1, c.2⟩
      rw [hb'] at h
      refine ⟨⟨?_, ?_⟩, h.2⟩
      · exact le_trans h.1.1 (le_trans (le_refl c.1) h.1.2.2.1)
      · exact le_trans h.1.2.1 h.1.2.2.2

/-- Witness for C6 on a concrete two-point list. -/
theorem boundsOf_empty_single_contains_witness :
    boundsOf [((1 : ℚ), (2 : ℚ)), ((3 : ℚ), (4 : ℚ))] = some ⟨1, 2, 3, 4⟩ ∧
      (1 : ℚ) ≤ 3 ∧ (2 : ℚ) ≤ 4 := by
  have hb : boundsOf [((1 : ℚ), (2 : ℚ)), ((3 : ℚ), (4 : ℚ))] = some ⟨1, 2, 3, 4⟩ := by
    decide
  have h := (boundsOf_empty_single_contains.2.2
    [((1 : ℚ), (2 : ℚ)), ((3 : ℚ), (4 : ℚ))] ⟨1, 2, 3, 4⟩ hb).1
  exact ⟨hb, h.1, h.2⟩

/-- A well-formed point feature at longitude `lng`, latitude `lat`. -/
def pointFeature (lng lat : ℚ) (nm : String) : Feature :=
  ⟨some ⟨"Point", some [.fin lng, .fin lat]⟩, some nm⟩

/-- C1: for every center, radius `r > 0` and cached feature list `F`,
`getNearbyAmenities` returns a subset of `F`, and a well-formed point
feature of `F` (finite coordinate pair `[lng, lat]`) is in the result iff
its haversine distance to the center is at most `r` — the inclusive
boundary keeps ties at exactly `r`. -/
theorem nearby_subset_and_radius_iff (lat lng r : ℝ) (F : List (Option Feature))
    (hr : 0 < r) :
    (∀ f, f ∈ getNearbyAmenities (some ⟨some F⟩) lat lng r → f ∈ F) ∧
    (∀ (f : Feature) (g : Geometry) (coords : List JSNum) (la ln : ℚ),
      f.geometry = some g → g.type = "Point" → g.coordinates = some coords →
      coords.get? 0 = some (.fin ln) → coords.get? 1 = some (.fin la) →
      (some f ∈ getNearbyAmenities (some ⟨some F⟩) lat lng r ↔
        some f ∈ F ∧ distanceInMeters lat lng (la : ℝ) (ln : ℝ) ≤ r)) := by
  constructor
  · intro f hf
    exact ((mem_getNearbyAmenities F lat lng r f).mp hf).1
  · intro f g coords la ln hg ht hc h0 h1
    have hlen : 2 ≤ coords.length := by
      obtain ⟨h, -⟩ := List.get?_eq_some.mp h1
      omega
    rw [mem_getNearbyAmenities]
    have h0' : coords[0]? = some (JSNum.fin ln) := by
      simpa [List.get?_eq_getElem?] using h0
    have h1' : coords[1]? = some (JSNum.fin la) := by
      simpa [List.get?_eq_getElem?] using h1
    have hk : keepFeature lat lng r (some f) ↔
        distanceInMeters lat lng (la : ℝ) (ln : ℝ) ≤ r := by
      simp [keepFeature, hg, ht, hc, h0', h1', jsDistLe, hlen]
    rw [hk]

/-- Witness for C1: a single feature at the center is returned (its
distance is zero). -/
theorem nearby_subset_and_radius_iff_witness :
    (0 : ℝ) < 600 ∧
      some (pointFeature 0 0 "a") ∈
        getNearbyAmenities (some ⟨some [some (pointFeature 0 0 "a")]⟩) 0 0 600 := by
  refine ⟨by norm_num, ?_⟩
  have h := (nearby_subset_and_radius_iff 0 0 600 [some (pointFeature 0 0 "a")]
    (by norm_num)).2 (pointFeature 0 0 "a") ⟨"Point", some [.fin 0, .fin 0]⟩
    [.fin 0, .fin 0] 0 0 rfl rfl rfl rfl rfl
  rw [h]
  refine ⟨by simp, ?_⟩
  rw [show ((0 : ℚ) : ℝ) = 0 by norm_num, distanceInMeters_self]
  norm_num

/-- C10: every element returned by `getNearbyAmenities` is a non-null
feature with a `Point` geometry and an array of at least two
coordinates, and a missing cache or a cache without a `features` field
yields the empty list rather than an error. -/
theorem nearby_wellformed_and_empty_cache :
    (∀ (cache : Option AmenitiesData) (lat lng r : ℝ) (f? : Option Feature),
      f? ∈ getNearbyAmenities cache lat lng r →
      ∃ (f : Feature) (g : Geometry) (coords : List JSNum),
        f? = some f ∧ f.geometry = some g ∧ g.type = "Point" ∧
          g.coordinates = some coords ∧ 2 ≤ coords.length) ∧
    (∀ lat lng r : ℝ, getNearbyAmenities none lat lng r = []) ∧
    (∀ lat lng r : ℝ, getNearbyAmenities (some ⟨none⟩) lat lng r = []) := by
  refine ⟨?_, fun _ _ _ => rfl, fun _ _ _ => rfl⟩
  intro cache lat lng r f? hf
  match cache with
  | none => simp [getNearbyAmenities] at hf
  | some ⟨none⟩ => simp [getNearbyAmenities] at hf
  | some ⟨some fs⟩ =>
    have hk := ((mem_getNearbyAmenities fs lat lng r f?).mp hf).2
    match f? with
    | none => exact absurd hk (by simp [keepFeature])
    | some f =>
      match hg : f.geometry with
      | none => rw [keepFeature, hg] at hk; exact absurd hk not_false
      | some g =>
        rw [keepFeature, hg] at hk
        obtain ⟨ht, hk⟩ := hk
        match hc : g.coordinates with
        | none => rw [hc] at hk; exact absurd hk not_false
        | some coords =>
          rw [hc] at hk
          exact ⟨f, g, coords, rfl, hg, ht, hc, hk.1⟩

/-- Witness for C10: the well-formedness facts extracted from a concrete
returned feature. -/
theorem nearby_wellformed_and_empty_cache_witness :
    ∃ (f : Feature) (g : Geometry) (coords : List JSNum),
      some (pointFeature 0 0 "b") = some f ∧ f.geometry = some g ∧
        g.type = "Point" ∧ g.coordinates = some coords ∧ 2 ≤ coords.length := by
  apply nearby_wellformed_and_empty_cache.1
    (some ⟨some [some (pointFeature 0 0 "b")]⟩) 0 0 600 (some (pointFeature 0 0 "b"))
  rw [mem_getNearbyAmenities]
  refine ⟨by simp, ?_⟩
  have hd : distanceInMeters 0 0 0 0 ≤ 600 := by
    rw [distanceInMeters_self]
    norm_num
  simp [keepFeature, pointFeature, jsDistLe, hd]

lemma jsUpperChar_idem (c : Char) : jsUpperChar (jsUpperChar c) = jsUpperChar c := by
  by_cases h : c.toNat ≥ 97 ∧ c.toNat ≤ 122
  · have hc : jsUpperChar c = Char.ofNat (c.toNat - 32) := by
      simp only [jsUpperChar, if_pos h]
    rw [hc]
    obtain ⟨h1, h2⟩ := h
    simp only [jsUpperChar]
    set n := c.toNat with hn
    interval_cases n <;> decide
  · have hc : jsUpperChar c = c := by
      simp only [jsUpperChar, if_neg h]
    rw [hc, hc]

lemma jsToUpperCase_idem (s : String) :
    jsToUpperCase (jsToUpperCase s) = jsToUpperCase s := by
  simp [jsToUpperCase, List.map_map, Function.comp_def, jsUpperChar_idem]

lemma jsToUpperCase_ne_empty (s : String) (hs : s ≠ "") : jsToUpperCase s ≠ "" := by
  intro h
  apply hs
  have hd : (jsToUpperCase s).data = [] := by rw [h]
  have hd3 : s.data.map jsUpperChar = [] := hd
  have hd2 : s.data = [] := by simpa using hd3
  cases s
  simp only at hd2
  rw [hd2]

lemma getAmenityConfig_some (s : String) (hs : s ≠ "") :
    getAmenityConfig (some s) =
      match AMENITY_ICONS.lookup (jsToUpperCase s) with
      | some c => c
      | none => defaultAmenityConfig := by
  simp only [getAmenityConfig, if_neg hs]
  cases AMENITY_ICONS.lookup (jsToUpperCase s) with
  | none => rfl
  | some c => rfl

/-- C9: `getAmenityConfig` is a total function over all strings and the
missing category, with no error path: the lookup is insensitive to case
(uppercasing the argument does not change the result); a string whose
uppercasing matches none of the table keys maps to the DEFAULT style, as
do the missing category and the falsy empty string; a matched key
returns its own entry; and the five category entries carry pairwise
distinct icon glyphs and colors. -/
theorem getAmenityConfig_total_default_unique :
    (∀ s : String,
      getAmenityConfig (some s) = getAmenityConfig (some (jsToUpperCase s))) ∧
    (∀ s : String, AMENITY_ICONS.lookup (jsToUpperCase s) = none →
      getAmenityConfig (some s) = defaultAmenityConfig) ∧
    getAmenityConfig none = defaultAmenityConfig ∧
    (∀ (s : String) (c : AmenityConfig),
      AMENITY_ICONS.lookup (jsToUpperCase s) = some c →
      getAmenityConfig (some s) = c) ∧
    (AMENITY_ICONS.take 5).Pairwise
      (fun a b => a.2.icon ≠ b.2.icon ∧ a.2.color ≠ b.2.color) := by
  refine ⟨?_, ?_, rfl, ?_, by decide⟩
  · intro s
    by_cases hs : s = ""
    · subst hs
      rfl
    · rw [getAmenityConfig_some s hs,
        getAmenityConfig_some (jsToUpperCase s) (jsToUpperCase_ne_empty s hs),
        jsToUpperCase_idem]
  · intro s hl
    by_cases hs : s = ""
    · subst hs
      rfl
    · rw [getAmenityConfig_some s hs, hl]
  · intro s c hl
    have hs : s ≠ "" := by
      intro h
      subst h
      rw [show jsToUpperCase "" = "" from rfl] at hl
      exact Option.noConfusion ((show AMENITY_ICONS.lookup "" = none by decide) ▸ hl)
    rw [getAmenityConfig_some s hs, hl]

/-- Witness for C9: an unknown category falls back to DEFAULT, a known
one (case-insensitively) gets its entry. -/
theorem getAmenityConfig_total_default_unique_witness :
    getAmenityConfig (some "gym") = defaultAmenityConfig ∧
      getAmenityConfig (some "school") = ⟨"🏫", "#2563eb", "School"⟩ :=
  ⟨getAmenityConfig_total_default_unique.2.1 "gym" (by decide),
    getAmenityConfig_total_default_unique.2.2.2.1 "school" ⟨"🏫", "#2563eb", "School"⟩
      (by decide)⟩

/-- Number of entries before `p` (in an output prefix `pre`) that share
`p`'s rounded-coordinate key: the claim's `k − 1` for the `k`-th feature
at a rounded coordinate. -/
def samePlaceBefore (pre : List Placement) (p : Placement) : ℕ :=
  (pre.filter (fun q => decide (placeKey q = placeKey p))).length

lemma layout_k_eq (fs : List (Option Feature)) :
    ∀ (counts : FixedStr × FixedStr → ℕ) (ps : List Placement),
      layoutForDisplay counts fs = .ok ps →
      ∀ (pre : List Placement) (p : Placement) (post : List Placement),
        ps = pre ++ p :: post →
        p.indexAtCoord = counts (placeKey p) + samePlaceBefore pre p + 1 := by
  induction fs with
  | nil =>
    intro counts ps h pre p post hps
    simp only [layoutForDisplay, Except.ok.injEq] at h
    rw [← h] at hps
    exact absurd hps (by simp)
  | cons f? rest ih =>
    intro counts ps h pre p post hps
    match f? with
    | none =>
      simp only [layoutForDisplay] at h
      exact Except.noConfusion h
    | some f =>
      match hg : f.geometry with
      | none =>
        simp only [layoutForDisplay, hg] at h
        exact ih counts ps h pre p post hps
      | some g =>
        by_cases hty : g.type = "Point"
        · simp only [layoutForDisplay, hg] at h
          rw [if_pos hty] at h
          match hc : g.coordinates with
          | none =>
            simp only [hc] at h
            exact ih counts ps h pre p post hps
          | some coords =>
            simp only [hc] at h
            match h0 : coords.get? 0, h1 : coords.get? 1 with
            | none, _ =>
              simp only [h0] at h
              exact Except.noConfusion h
            | some fLng, none =>
              simp only [h0, h1] at h
              exact Except.noConfusion h
            | some fLng, some fLat =>
              simp only [h0, h1] at h
              match hrec : layoutForDisplay
                  (bumpCounts counts (toFixed6 fLng, toFixed6 fLat)) rest with
              | .error e =>
                simp only [hrec] at h
                exact Except.noConfusion h
              | .ok ps' =>
                simp only [hrec, Except.ok.injEq] at h
                rw [← h] at hps
                match pre with
                | [] =>
                  simp only [List.nil_append, List.cons.injEq] at hps
                  rw [← hps.1]
                  simp [samePlaceBefore, placeKey]
                | q :: pre' =>
                  simp only [List.cons_append, List.cons.injEq] at hps
                  have hk := ih (bumpCounts counts (toFixed6 fLng, toFixed6 fLat))
                    ps' hrec pre' p post hps.2
                  have hq : placeKey q = (toFixed6 fLng, toFixed6 fLat) := by
                    rw [← hps.1]; rfl
                  by_cases hkey : placeKey q = placeKey p
                  · have hpk : placeKey p = (toFixed6 fLng, toFixed6 fLat) :=
                      hkey.symm.trans hq
                    have hb : bumpCounts counts (toFixed6 fLng, toFixed6 fLat)
                        (placeKey p) = counts (placeKey p) + 1 := by
                      simp [bumpCounts, hpk]
                    have hsp : samePlaceBefore (q :: pre') p =
                        samePlaceBefore pre' p + 1 := by
                      simp [samePlaceBefore, List.filter_cons, hkey]
                    rw [hk, hb, hsp]
                    omega
                  · have hpk : placeKey p ≠ (toFixed6 fLng, toFixed6 fLat) :=
                      fun hmm => hkey (hq.trans hmm.symm)
                    have hb : bumpCounts counts (toFixed6 fLng, toFixed6 fLat)
                        (placeKey p) = counts (placeKey p) := by
                      simp only [bumpCounts, if_neg hpk]
                    have hsp : samePlaceBefore (q :: pre') p =
                        samePlaceBefore pre' p := by
                      simp [samePlaceBefore, List.filter_cons, hkey]
                    rw [hk, hb, hsp]

        · simp only [layoutForDisplay, hg] at h
          rw [if_neg hty] at h
          exact ih counts ps h pre p post hps

/-- C2: in the marker-placement loop, an output entry with finite raw
coordinates preceded by no entry at the same rounded coordinate keeps
its original position, and one preceded by `m ≥ 1` of them (the `k`-th
feature there, `k = m + 1 ≥ 2`) is displaced 18 meters at angle
`m·60° = (k−1)·60°`, converted with `metersPerDegreeLat = 111320` and
`metersPerDegreeLng = 111320·cos(latitude·π/180)` per axis. -/
theorem layout_first_original_kth_displaced (fs : List (Option Feature))
    (ps : List Placement) (h : layoutForDisplay zeroCounts fs = .ok ps)
    (pre : List Placement) (p : Placement) (post : List Placement)
    (hps : ps = pre ++ p :: post) (la ln : ℚ)
    (hla : p.fLat = .fin la) (hln : p.fLng = .fin ln) :
    displayedPos p = some (
      if samePlaceBefore pre p = 0 then ((la : ℝ), (ln : ℝ))
      else ((la : ℝ) + 18 * Real.sin (samePlaceBefore pre p * (Real.pi / 3)) / 111320,
        (ln : ℝ) + 18 * Real.cos (samePlaceBefore pre p * (Real.pi / 3)) /
          (111320 * Real.cos ((la : ℝ) * Real.pi / 180)))) := by
  have hk := layout_k_eq fs zeroCounts ps h pre p post hps
  have hz : zeroCounts (placeKey p) = 0 := rfl
  rw [hz] at hk
  simp only [displayedPos, hla, hln]
  rw [hk]
  by_cases hm : samePlaceBefore pre p = 0
  · rw [hm, if_pos rfl]
    simp [displace]
  · rw [if_neg hm]
    have h1 : ¬(0 + samePlaceBefore pre p + 1 ≤ 1) := by omega
    rw [displace, if_neg h1]
    have h2 : (0 + samePlaceBefore pre p + 1 - 1 : ℕ) = samePlaceBefore pre p := by
      omega
    rw [h2]

lemma toFixed6_zero : toFixed6 (JSNum.fin 0) = FixedStr.num false 0 := by
  simp only [toFixed6]
  norm_num

lemma layout_two_origin :
    layoutForDisplay zeroCounts
        [some (pointFeature 0 0 "a"), some (pointFeature 0 0 "a")] =
      .ok [⟨pointFeature 0 0 "a", .fin 0, .fin 0, 1⟩,
        ⟨pointFeature 0 0 "a", .fin 0, .fin 0, 2⟩] := by
  simp [layoutForDisplay, pointFeature, toFixed6_zero, bumpCounts, zeroCounts]

/-- Witness for C2: of two features at the same coordinate, the second is
displaced by 18 meters at angle 60°. -/
theorem layout_first_original_kth_displaced_witness :
    displayedPos ⟨pointFeature 0 0 "a", .fin 0, .fin 0, 2⟩ =
      some ((((0 : ℚ) : ℝ) +
          18 * Real.sin (((1 : ℕ) : ℝ) * (Real.pi / 3)) / 111320,
        ((0 : ℚ) : ℝ) + 18 * Real.cos (((1 : ℕ) : ℝ) * (Real.pi / 3)) /
          (111320 * Real.cos (((0 : ℚ) : ℝ) * Real.pi / 180)))) := by
  have h := layout_first_original_kth_displaced
    [some (pointFeature 0 0 "a"), some (pointFeature 0 0 "a")]
    [⟨pointFeature 0 0 "a", .fin 0, .fin 0, 1⟩,
      ⟨pointFeature 0 0 "a", .fin 0, .fin 0, 2⟩]
    layout_two_origin
    [⟨pointFeature 0 0 "a", .fin 0, .fin 0, 1⟩]
    ⟨pointFeature 0 0 "a", .fin 0, .fin 0, 2⟩ [] rfl 0 0 rfl rfl
  have hs : samePlaceBefore [⟨pointFeature 0 0 "a", .fin 0, .fin 0, 1⟩]
      ⟨pointFeature 0 0 "a", .fin 0, .fin 0, 2⟩ = 1 := by
    simp [samePlaceBefore, placeKey]
  rw [hs] at h
  simpa using h

/-- The guard of the marker-placement loop: an entry is skipped exactly
when its geometry is missing, is not a `Point`, or has non-array
coordinates (app.js line 165).  Coordinate finiteness and arity are NOT
part of the guard. -/
def skippedFeature : Option Feature → Bool
  | none => false
  | some f =>
    match f.geometry with
    | none => true
    | some g => if g.type = "Point" then g.coordinates.isNone else true

/-- A feature with `Point` geometry whose first coordinate is `NaN`: by
the claim it is malformed (not two finite numbers) and must be dropped. -/
def nanFeature : Feature := ⟨some ⟨"Point", some [.nan, .fin 0]⟩, none⟩

/-- A feature with `Point` geometry and an empty coordinates array: by
the claim it must be silently dropped. -/
def emptyCoordsFeature : Feature := ⟨some ⟨"Point", some []⟩, none⟩

/-- Counterexample for C8: the loop keeps a feature with a `NaN`
coordinate (output length 1, the claim demands 0), and it throws (a
`TypeError` from `undefined.toFixed`) on an empty coordinate array
instead of silently dropping it. -/
theorem layout_keeps_nan_and_throws_on_short :
    (∃ ps, layoutForDisplay zeroCounts [some nanFeature] = .ok ps ∧
      ps.length = 1) ∧
    layoutForDisplay zeroCounts [some emptyCoordsFeature] = .error () := by
  constructor
  · refine ⟨[⟨nanFeature, .nan, .fin 0, 1⟩], ?_, rfl⟩
    simp [layoutForDisplay, nanFeature, bumpCounts, zeroCounts]
  · simp [layoutForDisplay, emptyCoordsFeature]

/-- C8 (amended): over input sequences of non-null features whose
`Point`-with-array-coordinates members all carry at least two coordinate
entries, the loop succeeds and its output length is the input length
minus the number of entries skipped by the guard (missing geometry,
non-`Point` type, or non-array coordinates).  Entries with non-finite
coordinates are kept, and a null feature or a short coordinate array
raises an error instead of being dropped. -/
theorem layout_length_minus_guard_skipped (fs : List (Option Feature))
    (hnn : ∀ f? ∈ fs, Option.isSome f? = true)
    (harity : ∀ (f : Feature) (g : Geometry) (coords : List JSNum),
      some f ∈ fs → f.geometry = some g → g.type = "Point" →
      g.coordinates = some coords → 2 ≤ coords.length) :
    ∀ counts, ∃ ps, layoutForDisplay counts fs = .ok ps ∧
      ps.length = fs.length - (fs.filter skippedFeature).length := by
  induction fs with
  | nil => exact fun counts => ⟨[], rfl, rfl⟩
  | cons f? rest ih =>
    intro counts
    have hnn' : ∀ x ∈ rest, Option.isSome x = true :=
      fun x hx => hnn x (List.mem_cons_of_mem _ hx)
    have harity' : ∀ (f : Feature) (g : Geometry) (coords : List JSNum),
        some f ∈ rest → f.geometry = some g → g.type = "Point" →
        g.coordinates = some coords → 2 ≤ coords.length :=
      fun f g coords hf => harity f g coords (List.mem_cons_of_mem _ hf)
    have hcnt := List.length_filter_le skippedFeature rest
    match f? with
    | none =>
      exact absurd (hnn none (List.mem_cons_self _ _)) (by simp)
    | some f =>
      match hg : f.geometry with
      | none =>
        obtain ⟨ps, hps, hl⟩ := ih hnn' harity' counts
        refine ⟨ps, ?_, ?_⟩
        · simp only [layoutForDisplay, hg]
          exact hps
        · have hsk : skippedFeature (some f) = true := by
            simp [skippedFeature, hg]
          simp only [List.filter_cons, hsk, if_pos, List.length_cons]
          omega
      | some g =>
        by_cases hty : g.type = "Point"
        · match hc : g.coordinates with
          | none =>
            obtain ⟨ps, hps, hl⟩ := ih hnn' harity' counts
            refine ⟨ps, ?_, ?_⟩
            · simp only [layoutForDisplay, hg]
              rw [if_pos hty]
              simp only [hc]
              exact hps
            · have hsk : skippedFeature (some f) = true := by
                simp [skippedFeature, hg, hty, hc]
              simp only [List.filter_cons, hsk, if_pos, List.length_cons]
              omega
          | some coords =>
            have hlc : 2 ≤ coords.length :=
              harity f g coords (List.mem_cons_self _ _) hg hty hc
            match coords, hlc with
            | a :: b :: tail, _ =>
              obtain ⟨ps, hps, hl⟩ := ih hnn' harity'
                (bumpCounts counts (toFixed6 a, toFixed6 b))
              refine ⟨⟨f, a, b, counts (toFixed6 a, toFixed6 b) + 1⟩ :: ps, ?_, ?_⟩
              · simp only [layoutForDisplay, hg]
                rw [if_pos hty]
                simp only [hc, List.get?, hps]
              · have hsk : skippedFeature (some f) = false := by
                  simp [skippedFeature, hg, hty, hc]
                simp only [List.filter_cons, hsk, List.length_cons]
                simp only [Bool.false_eq_true, if_false]
                omega
        · obtain ⟨ps, hps, hl⟩ := ih hnn' harity' counts
          refine ⟨ps, ?_, ?_⟩
          · simp only [layoutForDisplay, hg]
            rw [if_neg hty]
            exact hps
          · have hsk : skippedFeature (some f) = true := by
              simp [skippedFeature, hg, hty]
            simp only [List.filter_cons, hsk, if_pos, List.length_cons]
            omega

/-- Witness for C8 (amended): one kept feature plus one skipped
(geometry-less) feature give output length `2 - 1`. -/
theorem layout_length_minus_guard_skipped_witness :
    ∃ ps, layoutForDisplay zeroCounts
        [some (pointFeature 0 0 "a"), some ⟨none, none⟩] = .ok ps ∧
      ps.length = 2 - 1 := by
  have h := layout_length_minus_guard_skipped
    [some (pointFeature 0 0 "a"), some ⟨none, none⟩]
    (by intro f? hf; rcases List.mem_cons.mp hf with h | h
        · rw [h]; rfl
        · rcases List.mem_cons.mp h with h2 | h2
          · rw [h2]; rfl
          · exact absurd h2 (by simp))
    (by intro f g coords hf hg hty hc
        rcases List.mem_cons.mp hf with h | h
        · have hfeq : f = pointFeature 0 0 "a" := by
            simpa using h
          subst hfeq
          have hgeq : g = ⟨"Point", some [.fin 0, .fin 0]⟩ := by
            have := hg
            simp [pointFeature] at this
            exact this.symm
          subst hgeq
          have : coords = [JSNum.fin 0, JSNum.fin 0] := by
            have := hc
            simp at this
            exact this.symm
          rw [this]
          norm_num
        · rcases List.mem_cons.mp h with h2 | h2
          · have hfeq : f = ⟨none, none⟩ := by simpa using h2
            subst hfeq
            simp at hg
          · exact absurd h2 (by simp))
    zeroCounts
  have hfl : ([some (pointFeature 0 0 "a"),
      some (⟨none, none⟩ : Feature)].filter skippedFeature).length = 1 := by
    simp [skippedFeature, pointFeature]
  rw [hfl] at h
  simpa using h

lemma displace_one (u v : ℚ) : displace u v 1 = ((u : ℝ), (v : ℝ)) := by
  rw [displace, if_pos (by norm_num)]

lemma displace_two (u v : ℚ) :
    displace u v 2 = ((u : ℝ) + 18 * (Real.sqrt 3 / 2) / 111320,
      (v : ℝ) + 18 * (1 / 2) / (111320 * Real.cos ((u : ℝ) * Real.pi / 180))) := by
  rw [displace, if_neg (by norm_num)]
  have h2 : ((2 - 1 : ℕ) : ℝ) * (Real.pi / 3) = Real.pi / 3 := by norm_num
  rw [h2, Real.sin_pi_div_three, Real.cos_pi_div_three]

lemma displace_three (u v : ℚ) :
    displace u v 3 = ((u : ℝ) + 18 * (Real.sqrt 3 / 2) / 111320,
      (v : ℝ) + 18 * (-(1 / 2)) / (111320 * Real.cos ((u : ℝ) * Real.pi / 180))) := by
  rw [displace, if_neg (by norm_num)]
  have h2 : ((3 - 1 : ℕ) : ℝ) * (Real.pi / 3) = Real.pi - Real.pi / 3 := by
    push_cast
    ring
  rw [h2, Real.sin_pi_sub, Real.cos_pi_sub, Real.sin_pi_div_three,
    Real.cos_pi_div_three]

lemma displace_four (u v : ℚ) :
    displace u v 4 = ((u : ℝ) + 18 * 0 / 111320,
      (v : ℝ) + 18 * (-1) / (111320 * Real.cos ((u : ℝ) * Real.pi / 180))) := by
  rw [displace, if_neg (by norm_num)]
  have h2 : ((4 - 1 : ℕ) : ℝ) * (Real.pi / 3) = Real.pi := by
    push_cast
    ring
  rw [h2, Real.sin_pi, Real.cos_pi]

lemma displace_five (u v : ℚ) :
    displace u v 5 = ((u : ℝ) + 18 * (-(Real.sqrt 3 / 2)) / 111320,
      (v : ℝ) + 18 * (-(1 / 2)) / (111320 * Real.cos ((u : ℝ) * Real.pi / 180))) := by
  rw [displace, if_neg (by norm_num)]
  have h2 : ((5 - 1 : ℕ) : ℝ) * (Real.pi / 3) = Real.pi + Real.pi / 3 := by
    push_cast
    ring
  rw [h2, Real.sin_add, Real.cos_add, Real.sin_pi, Real.cos_pi,
    Real.sin_pi_div_three, Real.cos_pi_div_three]
  simp only [Prod.mk.injEq]
  constructor <;> ring

lemma displace_six (u v : ℚ) :
    displace u v 6 = ((u : ℝ) + 18 * (-(Real.sqrt 3 / 2)) / 111320,
      (v : ℝ) + 18 * (1 / 2) / (111320 * Real.cos ((u : ℝ) * Real.pi / 180))) := by
  rw [displace, if_neg (by norm_num)]
  have h2 : ((6 - 1 : ℕ) : ℝ) * (Real.pi / 3) = 2 * Real.pi - Real.pi / 3 := by
    push_cast
    ring
  rw [h2, Real.sin_sub, Real.cos_sub, Real.sin_two_pi, Real.cos_two_pi,
    Real.sin_pi_div_three, Real.cos_pi_div_three]
  simp only [Prod.mk.injEq]
  constructor <;> ring

lemma displace_seven (u v : ℚ) :
    displace u v 7 = ((u : ℝ) + 18 * 0 / 111320,
      (v : ℝ) + 18 * 1 / (111320 * Real.cos ((u : ℝ) * Real.pi / 180))) := by
  rw [displace, if_neg (by norm_num)]
  have h2 : ((7 - 1 : ℕ) : ℝ) * (Real.pi / 3) = 2 * Real.pi := by
    push_cast
    ring
  rw [h2, Real.sin_two_pi, Real.cos_two_pi]

lemma mLng_pos (u : ℝ) (h : |u| < 90) :
    0 < 111320 * Real.cos (u * Real.pi / 180) := by
  have hio : u * Real.pi / 180 ∈ Set.Ioo (-(Real.pi / 2)) (Real.pi / 2) := by
    obtain ⟨hlo, hhi⟩ := abs_lt.mp h
    constructor
    · nlinarith [Real.pi_pos]
    · nlinarith [Real.pi_pos]
  exact mul_pos (by norm_num) (Real.cos_pos_of_mem_Ioo hio)

lemma mLng_le (u : ℝ) : 111320 * Real.cos (u * Real.pi / 180) ≤ 111320 := by
  nlinarith [Real.cos_le_one (u * Real.pi / 180)]

lemma prod_ne_of_fst {x1 y1 x2 y2 : ℝ} (h : x1 ≠ x2) : (x1, y1) ≠ (x2, y2) :=
  fun hc => h (congrArg Prod.fst hc)

lemma prod_ne_of_snd {x1 y1 x2 y2 : ℝ} (h : y1 ≠ y2) : (x1, y1) ≠ (x2, y2) :=
  fun hc => h (congrArg Prod.snd hc)

set_option maxHeartbeats 1600000 in
lemma displace_ne (la ln la' ln' : ℚ) (a b : ℕ)
    (hla : |(la : ℝ) - (la' : ℝ)| < 1 / 1000000)
    (hln : |(ln : ℝ) - (ln' : ℝ)| < 1 / 1000000)
    (h90 : |(la : ℝ)| < 90) (h90' : |(la' : ℝ)| < 90)
    (h1 : 1 ≤ a) (hab : a < b) (hb : b ≤ 7) :
    displace la ln a ≠ displace la' ln' b := by
  have h3 : (1 : ℝ) ≤ Real.sqrt 3 := by
    nlinarith [Real.sq_sqrt (show (0 : ℝ) ≤ 3 by norm_num), Real.sqrt_nonneg 3]
  have hMpos := mLng_pos ((la : ℝ)) h90
  have hM'pos := mLng_pos ((la' : ℝ)) h90'
  have hMle := mLng_le ((la : ℝ))
  have hM'le := mLng_le ((la' : ℝ))
  have hMdiv : (18 : ℝ) / 111320 ≤
      18 / (111320 * Real.cos ((la : ℝ) * Real.pi / 180)) :=
    div_le_div_of_nonneg_left (by norm_num) hMpos hMle
  have hM'div : (18 : ℝ) / 111320 ≤
      18 / (111320 * Real.cos ((la' : ℝ) * Real.pi / 180)) :=
    div_le_div_of_nonneg_left (by norm_num) hM'pos hM'le
  obtain ⟨hla1, hla2⟩ := abs_lt.mp hla
  obtain ⟨hln1, hln2⟩ := abs_lt.mp hln
  have ha6 : a ≤ 6 := by omega
  interval_cases a <;> interval_cases b
  · rw [displace_one, displace_two]
    apply prod_ne_of_fst
    intro heq
    linarith
  · rw [displace_one, displace_three]
    apply prod_ne_of_fst
    intro heq
    linarith
  · rw [displace_one, displace_four]
    apply prod_ne_of_snd
    intro heq
    have e1 : (18 : ℝ) * (-1) / (111320 * Real.cos ((la' : ℝ) * Real.pi / 180)) =
        -(18 / (111320 * Real.cos ((la' : ℝ) * Real.pi / 180))) := by ring
    linarith
  · rw [displace_one, displace_five]
    apply prod_ne_of_fst
    intro heq
    linarith
  · rw [displace_one, displace_six]
    apply prod_ne_of_fst
    intro heq
    linarith
  · rw [displace_one, displace_seven]
    apply prod_ne_of_snd
    intro heq
    have e1 : (18 : ℝ) * 1 / (111320 * Real.cos ((la' : ℝ) * Real.pi / 180)) =
        18 / (111320 * Real.cos ((la' : ℝ) * Real.pi / 180)) := by ring
    linarith
  · rw [displace_two, displace_three]
    apply prod_ne_of_snd
    intro heq
    have e1 : (18 : ℝ) * (1 / 2) / (111320 * Real.cos ((la : ℝ) * Real.pi / 180)) =
        (1 / 2) * (18 / (111320 * Real.cos ((la : ℝ) * Real.pi / 180))) := by ring
    have e2 : (18 : ℝ) * (-(1 / 2)) /
          (111320 * Real.cos ((la' : ℝ) * Real.pi / 180)) =
        -((1 / 2) * (18 / (111320 * Real.cos ((la' : ℝ) * Real.pi / 180)))) := by
      ring
    linarith
  · rw [displace_two, displace_four]
    apply prod_ne_of_fst
    intro heq
    linarith
  · rw [displace_two, displace_five]
    apply prod_ne_of_fst
    intro heq
    linarith
  · rw [displace_two, displace_six]
    apply prod_ne_of_fst
    intro heq
    linarith
  · rw [displace_two, displace_seven]
    apply prod_ne_of_fst
    intro heq
    linarith
  · rw [displace_three, displace_four]
    apply prod_ne_of_fst
    intro heq
    linarith
  · rw [displace_three, displace_five]
    apply prod_ne_of_fst
    intro heq
    linarith
  · rw [displace_three, displace_six]
    apply prod_ne_of_fst
    intro heq
    linarith
  · rw [displace_three, displace_seven]
    apply prod_ne_of_fst
    intro heq
    linarith
  · rw [displace_four, displace_five]
    apply prod_ne_of_fst
    intro heq
    linarith
  · rw [displace_four, displace_six]
    apply prod_ne_of_fst
    intro heq
    linarith
  · rw [displace_four, displace_seven]
    apply prod_ne_of_snd
    intro heq
    have e1 : (18 : ℝ) * (-1) / (111320 * Real.cos ((la : ℝ) * Real.pi / 180)) =
        -(18 / (111320 * Real.cos ((la : ℝ) * Real.pi / 180))) := by ring
    have e2 : (18 : ℝ) * 1 / (111320 * Real.cos ((la' : ℝ) * Real.pi / 180)) =
        18 / (111320 * Real.cos ((la' : ℝ) * Real.pi / 180)) := by ring
    linarith
  · rw [displace_five, displace_six]
    apply prod_ne_of_snd
    intro heq
    have e1 : (18 : ℝ) * (-(1 / 2)) /
          (111320 * Real.cos ((la : ℝ) * Real.pi / 180)) =
        -((1 / 2) * (18 / (111320 * Real.cos ((la : ℝ) * Real.pi / 180)))) := by
      ring
    have e2 : (18 : ℝ) * (1 / 2) /
          (111320 * Real.cos ((la' : ℝ) * Real.pi / 180)) =
        (1 / 2) * (18 / (111320 * Real.cos ((la' : ℝ) * Real.pi / 180))) := by ring
    linarith
  · rw [displace_five, displace_seven]
    apply prod_ne_of_fst
    intro heq
    linarith
  · rw [displace_six, displace_seven]
    apply prod_ne_of_fst
    intro heq
    linarith

lemma toFixed6_fin_close (x y : ℚ)
    (h : toFixed6 (.fin x) = toFixed6 (.fin y)) : |x - y| < 1 / 1000000 := by
  simp only [toFixed6] at h
  by_cases hx : (10 : ℚ) ^ 21 ≤ |x| <;> by_cases hy : (10 : ℚ) ^ 21 ≤ |y|
  · rw [if_pos hx, if_pos hy] at h
    injection h with h2
    rw [h2]
    norm_num
  · rw [if_pos hx, if_neg hy] at h
    exact absurd h (by simp)
  · rw [if_neg hx, if_pos hy] at h
    exact absurd h (by simp)
  · rw [if_neg hx, if_neg hy] at h
    injection h with hsign hfloor
    have habs : |(|x| - |y|)| < 1 / 1000000 := by
      have h1 := Int.floor_le (|x| * 10 ^ 6 + 1 / 2)
      have h2 := Int.lt_floor_add_one (|x| * 10 ^ 6 + 1 / 2)
      have h3 := Int.floor_le (|y| * 10 ^ 6 + 1 / 2)
      have h4 := Int.lt_floor_add_one (|y| * 10 ^ 6 + 1 / 2)
      rw [hfloor] at h1 h2
      rw [abs_lt]
      constructor <;> linarith
    have hsign' : x < 0 ↔ y < 0 := decide_eq_decide.mp hsign
    rcases lt_or_le x 0 with hx0 | hx0
    · have hy0 : y < 0 := hsign'.mp hx0
      have he : |x - y| = |(|x| - |y|)| := by
        rw [abs_of_neg hx0, abs_of_neg hy0, abs_sub_comm]
        congr 1
        ring
      rw [he]
      exact habs
    · have hy0 : 0 ≤ y := by
        by_contra hc
        exact absurd (hsign'.mpr (lt_of_not_le hc)) (not_lt.mpr hx0)
      have he : |x - y| = |(|x| - |y|)| := by
        rw [abs_of_nonneg hx0, abs_of_nonneg hy0]
      rw [he]
      exact habs

/-- C3 (amended): two distinct output entries at the same rounded
coordinate get distinct displayed positions, provided their raw
coordinates are finite, their latitudes are strictly between −90 and 90,
and the later entry is at most the seventh feature at that rounded
coordinate.  With eight or more coincident features the 60° increments
wrap around and positions repeat (see the counterexample). -/
theorem layout_distinct_positions_upto_seven (fs : List (Option Feature))
    (ps : List Placement) (h : layoutForDisplay zeroCounts fs = .ok ps)
    (pre mid post : List Placement) (p q : Placement)
    (hps : ps = pre ++ p :: mid ++ q :: post)
    (hkey : placeKey p = placeKey q)
    (la ln la' ln' : ℚ)
    (hpla : p.fLat = .fin la) (hpln : p.fLng = .fin ln)
    (hqla : q.fLat = .fin la') (hqln : q.fLng = .fin ln')
    (h90 : |(la : ℝ)| < 90) (h90' : |(la' : ℝ)| < 90)
    (h7 : q.indexAtCoord ≤ 7) :
    displayedPos p ≠ displayedPos q := by
  have hkp := layout_k_eq fs zeroCounts ps h pre p (mid ++ q :: post)
    (by rw [hps]; simp)
  have hps2 : ps = (pre ++ p :: mid) ++ q :: post := by
    rw [hps]
  have hkq := layout_k_eq fs zeroCounts ps h (pre ++ p :: mid) q post hps2
  have hz1 : zeroCounts (placeKey p) = 0 := rfl
  have hz2 : zeroCounts (placeKey q) = 0 := rfl
  rw [hz1] at hkp
  rw [hz2] at hkq
  have hfilter : samePlaceBefore (pre ++ p :: mid) q =
      samePlaceBefore pre q + samePlaceBefore (p :: mid) q := by
    simp [samePlaceBefore, List.filter_append]
  have hcons : samePlaceBefore (p :: mid) q = samePlaceBefore mid q + 1 := by
    simp [samePlaceBefore, List.filter_cons, hkey]
  have hpq : samePlaceBefore pre q = samePlaceBefore pre p := by
    simp only [samePlaceBefore, hkey]
  have hlt : p.indexAtCoord < q.indexAtCoord := by omega
  have h1p : 1 ≤ p.indexAtCoord := by omega
  have hkey' := hkey
  simp only [placeKey, hpla, hpln, hqla, hqln, Prod.mk.injEq] at hkey'
  have hclose_la : |la - la'| < 1 / 1000000 := toFixed6_fin_close la la' hkey'.2
  have hclose_ln : |ln - ln'| < 1 / 1000000 := toFixed6_fin_close ln ln' hkey'.1
  have hcla : |(la : ℝ) - (la' : ℝ)| < 1 / 1000000 := by
    rw [show ((la : ℝ) - (la' : ℝ)) = ((la - la' : ℚ) : ℝ) by push_cast; ring,
      ← Rat.cast_abs,
      show (1 : ℝ) / 1000000 = ((1 / 1000000 : ℚ) : ℝ) by norm_num]
    exact Rat.cast_lt.mpr hclose_la
  have hcln : |(ln : ℝ) - (ln' : ℝ)| < 1 / 1000000 := by
    rw [show ((ln : ℝ) - (ln' : ℝ)) = ((ln - ln' : ℚ) : ℝ) by push_cast; ring,
      ← Rat.cast_abs,
      show (1 : ℝ) / 1000000 = ((1 / 1000000 : ℚ) : ℝ) by norm_num]
    exact Rat.cast_lt.mpr hclose_ln
  simp only [displayedPos, hpla, hpln, hqla, hqln]
  intro hcon
  exact absurd (Option.some.inj hcon)
    (displace_ne la ln la' ln' p.indexAtCoord q.indexAtCoord
      hcla hcln h90 h90' h1p hlt h7)

/-- Witness for C3 (amended): the two coincident features of
`layout_two_origin` get distinct displayed positions. -/
theorem layout_distinct_positions_upto_seven_witness :
    displayedPos (⟨pointFeature 0 0 "a", .fin 0, .fin 0, 1⟩ : Placement) ≠
      displayedPos (⟨pointFeature 0 0 "a", .fin 0, .fin 0, 2⟩ : Placement) := by
  apply layout_distinct_positions_upto_seven
    [some (pointFeature 0 0 "a"), some (pointFeature 0 0 "a")]
    [⟨pointFeature 0 0 "a", .fin 0, .fin 0, 1⟩,
      ⟨pointFeature 0 0 "a", .fin 0, .fin 0, 2⟩]
    layout_two_origin [] [] []
    (⟨pointFeature 0 0 "a", .fin 0, .fin 0, 1⟩ : Placement)
    (⟨pointFeature 0 0 "a", .fin 0, .fin 0, 2⟩ : Placement)
    rfl rfl 0 0 0 0 rfl rfl rfl rfl (by norm_num) (by norm_num) (by norm_num)

/-- Eight features at the same coordinate. -/
def eightOrigin : List (Option Feature) :=
  [some (pointFeature 0 0 "x"), some (pointFeature 0 0 "x"),
    some (pointFeature 0 0 "x"), some (pointFeature 0 0 "x"),
    some (pointFeature 0 0 "x"), some (pointFeature 0 0 "x"),
    some (pointFeature 0 0 "x"), some (pointFeature 0 0 "x")]

/-- The placements the loop produces for `eightOrigin`. -/
def eightPlacements : List Placement :=
  [⟨pointFeature 0 0 "x", .fin 0, .fin 0, 1⟩,
    ⟨pointFeature 0 0 "x", .fin 0, .fin 0, 2⟩,
    ⟨pointFeature 0 0 "x", .fin 0, .fin 0, 3⟩,
    ⟨pointFeature 0 0 "x", .fin 0, .fin 0, 4⟩,
    ⟨pointFeature 0 0 "x", .fin 0, .fin 0, 5⟩,
    ⟨pointFeature 0 0 "x", .fin 0, .fin 0, 6⟩,
    ⟨pointFeature 0 0 "x", .fin 0, .fin 0, 7⟩,
    ⟨pointFeature 0 0 "x", .fin 0, .fin 0, 8⟩]

lemma layout_eight_origin :
    layoutForDisplay zeroCounts eightOrigin = .ok eightPlacements := by
  simp [eightOrigin, eightPlacements, layoutForDisplay, pointFeature,
    toFixed6_zero, bumpCounts, zeroCounts]

lemma displace_two_eq_eight : displace (0 : ℚ) 0 2 = displace 0 0 8 := by
  rw [displace_two]
  rw [displace, if_neg (by norm_num)]
  have h2 : ((8 - 1 : ℕ) : ℝ) * (Real.pi / 3) = Real.pi / 3 + 2 * Real.pi := by
    push_cast
    ring
  rw [h2, Real.sin_add_two_pi, Real.cos_add_two_pi, Real.sin_pi_div_three,
    Real.cos_pi_div_three]

/-- Counterexample for C3: with eight features at one rounded coordinate,
the second and the eighth output entries (distinct entries sharing the
rounded key) receive the same displayed position, because the angle
`7·60° = 60° + 360°` wraps around the circle. -/
theorem layout_eighth_duplicate_collides :
    layoutForDisplay zeroCounts eightOrigin = .ok eightPlacements ∧
    eightPlacements.get? 1 = some ⟨pointFeature 0 0 "x", .fin 0, .fin 0, 2⟩ ∧
    eightPlacements.get? 7 = some ⟨pointFeature 0 0 "x", .fin 0, .fin 0, 8⟩ ∧
    placeKey ⟨pointFeature 0 0 "x", .fin 0, .fin 0, 2⟩ =
      placeKey ⟨pointFeature 0 0 "x", .fin 0, .fin 0, 8⟩ ∧
    (⟨pointFeature 0 0 "x", .fin 0, .fin 0, 2⟩ : Placement) ≠
      ⟨pointFeature 0 0 "x", .fin 0, .fin 0, 8⟩ ∧
    displayedPos (⟨pointFeature 0 0 "x", .fin 0, .fin 0, 2⟩ : Placement) =
      displayedPos (⟨pointFeature 0 0 "x", .fin 0, .fin 0, 8⟩ : Placement) := by
  refine ⟨layout_eight_origin, rfl, rfl, rfl, by simp, ?_⟩
  simp only [displayedPos]
  rw [displace_two_eq_eight]

end HDB
